import Mathlib

/-!
Shallow embedding of the RP2040 MILES controller (`DROP_MILES.cpp` together
with the code-word table `MILES_CODES.H.h`).

Modelling conventions:
* machine unsigned integers (`uint8_t`, `uint32_t`, `size_t`, `unsigned long`)
  become `Nat`; `millis()` is monotone so the unsigned subtractions
  `millis() - t` coincide with truncated `Nat` subtraction.  The one place
  where an underflow could matter (`BIN_US - PULSE_US` in the transmit loop)
  is modelled with an explicit 32-bit wrap-around subtraction `usub32`.
* the global mutable variables of the sketch form the record `Sys`; the
  digital pins read during one `loop()` iteration form the record `Inp`
  (a button field is `true` when the pin reads LOW, i.e. pressed; `limit`
  and `alt` are `true` when the pin reads HIGH).
* the EEPROM is the record `Store`; `EEPROM.begin/put/get/commit` become
  pure reads and functional updates of that record.
* display calls (`draw_gui`, LEDs, serial prints) only render state and,
  past a toast timeout, clear the two display flags; they are not modelled.
* the busy-wait transmission is modelled by the schedule of output segments
  it drives (`frame_schedule`) plus its state effects (`laser_transmit_frame`);
  the self-sense confirmation window outcome is the input bit `ir_sense`.
-/

namespace DropMiles

/-- `MILES_Code` from `MILES_CODES.H.h`: a description plus the 11-bit word
(stored as a list of machine bytes, index 0..10). -/
structure MILES_Code where
  description : String
  pattern : List Nat
deriving DecidableEq

def PLAYER_UNIVERSAL_KILL : MILES_Code :=
  { description := "Universal Kill", pattern := [1, 1, 0, 0, 0, 1, 0, 1, 1, 0, 1] }

def PLAYER_ID_001 : MILES_Code :=
  { description := "Player ID 001", pattern := [1, 0, 0, 1, 0, 0, 1, 1, 0, 1, 0] }

def PLAYER_ID_002 : MILES_Code :=
  { description := "Player ID 002", pattern := [1, 0, 1, 1, 0, 0, 1, 0, 1, 1, 0] }

def EVENT_PAUSE : MILES_Code :=
  { description := "Pause / Reset", pattern := [1, 1, 0, 0, 0, 1, 0, 1, 0, 1, 1] }

def EVENT_END_EXERCISE : MILES_Code :=
  { description := "End Exercise", pattern := [1, 1, 0, 0, 0, 1, 1, 1, 1, 1, 0] }

/-- `ProtocolEntry` from `DROP_MILES.cpp`. -/
structure ProtocolEntry where
  id : Nat
  name : String
  code : MILES_Code
deriving DecidableEq

/-- The `protocols[]` registry table. -/
def protocols : List ProtocolEntry :=
  [ { id := 0, name := "Universal Kill (Basic)", code := PLAYER_UNIVERSAL_KILL },
    { id := 1, name := "Player ID 001", code := PLAYER_ID_001 },
    { id := 2, name := "Player ID 002", code := PLAYER_ID_002 },
    { id := 3, name := "Pause/Reset", code := EVENT_PAUSE },
    { id := 4, name := "End Exercise", code := EVENT_END_EXERCISE } ]

def NUM_PROTOCOLS : Nat := protocols.length

/-- Out-of-range read default (models an arbitrary `ProtocolEntry`; the code
never indexes out of range, see the `active_index` invariant). -/
def pdefault : ProtocolEntry :=
  { id := 0, name := "", code := { description := "", pattern := [] } }

-- Timing and configuration constants of the sketch.
def BIN_US : Nat := 500
def PULSE_US : Nat := 250
def SIDE_BIT_INDEX : Nat := 5
def DEBOUNCE_MS : Nat := 200
def PWR_HOLD_MS : Nat := 800
def EXPENDED_MS : Nat := 5000
def EEPROM_MAGIC : Nat := 0x4D494C45

/-- `enum State` of the FSM. -/
inductive State where
  | SAFE_STATE
  | SAFE_READY
  | ARMED_FLY
  | ARMED_SENSING
  | ARMED_IR_FLASH
  | EXPENDED
deriving DecidableEq

/-- The global mutable variables of the sketch (including the `static`
`pwr_down` of `handle_power_button`). -/
structure Sys where
  state : State
  active_index : Nat
  active_side_opfor : Bool
  eeprom_ok : Bool
  t_last_next : Nat
  t_last_side : Nat
  t_last_fire : Nat
  t_last_pwr : Nat
  pwr_down : Bool
  t_expended_start : Nat
  shot_count : Nat
  flash_event : Bool
  flash_event_ms : Nat
  flash_confirmed : Bool
  confirmed_ms : Nat
deriving DecidableEq

/-- Initial values of the globals at boot. -/
def sysInit : Sys :=
  { state := State.SAFE_STATE, active_index := 0, active_side_opfor := false,
    eeprom_ok := false, t_last_next := 0, t_last_side := 0, t_last_fire := 0,
    t_last_pwr := 0, pwr_down := false, t_expended_start := 0, shot_count := 0,
    flash_event := false, flash_event_ms := 0, flash_confirmed := false,
    confirmed_ms := 0 }

/-- The digital inputs and the clock as read during one `loop()` iteration.
Buttons are `true` when pressed (pin reads LOW); `ir_sense` is `true` when
the self-sense receiver reports the burst inside the confirmation window. -/
structure Inp where
  btn_pwr : Bool
  btn_next : Bool
  btn_side : Bool
  btn_fire : Bool
  limit : Bool
  alt : Bool
  ir_sense : Bool
  now : Nat
deriving DecidableEq

/-- The EEPROM contents as the sketch uses them: availability of the store
(`EEPROM.begin` result) plus the three persisted fields. -/
structure Store where
  avail : Bool
  magic : Nat
  pid : Nat
  side : Nat
deriving DecidableEq

-- -------------------- Frame helpers --------------------

/-- `build_frame_from_code`: `out_bits[i] = c->pattern[i] ? 1 : 0` for
`i = 0..10`, output length 11. -/
def build_frame_from_code (c : MILES_Code) : List Nat :=
  (List.range 11).map (fun i => if c.pattern.getD i 0 ≠ 0 then 1 else 0)

/-- `apply_side_to_frame`: writes the team bit only when
`len > SIDE_BIT_INDEX`; otherwise the frame is left untouched. -/
def apply_side_to_frame (bits : List Nat) (opfor : Bool) : List Nat :=
  if SIDE_BIT_INDEX < bits.length then
    bits.set SIDE_BIT_INDEX (if opfor then 1 else 0)
  else bits

/-- The encode pipeline as `fsm_step` performs it: build the frame from the
code word, then apply the side bit. -/
def encode (c : MILES_Code) (opfor : Bool) : List Nat :=
  apply_side_to_frame (build_frame_from_code c) opfor

/-- Modelled from the spec: the spec's `encode` contract (§4.1) demands an
error — never partial output — when `team_bit_index ≥ pattern.length`.  No
such failing operation exists in the source; this definition follows the
spec's words so it can be compared with `apply_side_to_frame`. -/
def apply_side_spec (bits : List Nat) (opfor : Bool) : Option (List Nat) :=
  if SIDE_BIT_INDEX < bits.length then
    some (bits.set SIDE_BIT_INDEX (if opfor then 1 else 0))
  else none

-- -------------------- Transmit --------------------

/-- 32-bit wrap-around subtraction, the machine meaning of `BIN_US - PULSE_US`
on `uint32_t`. -/
def usub32 (a b : Nat) : Nat := (a + 2 ^ 32 - b) % 2 ^ 32

/-- The output-line segments `(level, duration_us)` driven for one bit of the
frame by the transmit loop of `laser_transmit_frame`:  a `1` bit asserts HIGH
for `PULSE_US`, then — only when `BIN_US > PULSE_US` — LOW for the remainder
of the bin; a `0` bit holds LOW for the full bin. -/
def bit_schedule (binUs pulseUs : Nat) (b : Nat) : List (Bool × Nat) :=
  if b ≠ 0 then
    (true, pulseUs) :: (if pulseUs < binUs then [(false, usub32 binUs pulseUs)] else [])
  else [(false, binUs)]

/-- The whole frame's output schedule. -/
def frame_schedule (binUs pulseUs : Nat) (bits : List Nat) : List (Bool × Nat) :=
  (bits.map (bit_schedule binUs pulseUs)).flatten

/-- State effects of `laser_transmit_frame`: shot counter, toast flag and the
self-sense confirmation outcome; the driven waveform itself is
`frame_schedule` above. -/
def laser_transmit_frame (frame_bits : List Nat) (ir_seen : Bool) (now : Nat)
    (s : Sys) : Sys :=
  let _ := frame_bits
  { s with shot_count := s.shot_count + 1, flash_event := true,
           flash_event_ms := now, flash_confirmed := ir_seen,
           confirmed_ms := now }

-- -------------------- Persistence --------------------

/-- `save_settings`: a no-op unless `eeprom_ok`; otherwise writes magic,
the id of the active protocol and the side byte. -/
def save_settings (s : Sys) (st : Store) : Store :=
  if !s.eeprom_ok then st
  else { st with magic := EEPROM_MAGIC,
                 pid := (protocols.getD s.active_index pdefault).id,
                 side := if s.active_side_opfor then 1 else 0 }

/-- The scan loop of `load_settings`: index of the first registry entry whose
`id` equals the persisted id. -/
def find_protocol_index (pid : Nat) : List ProtocolEntry → Option Nat
  | [] => none
  | e :: rest =>
    if e.id = pid then some 0
    else (find_protocol_index pid rest).map (fun i => i + 1)

/-- `load_settings`: returns early when the store is unavailable or the magic
marker mismatches; otherwise picks the first matching protocol index (leaving
`active_index` alone when no id matches) and applies the persisted side. -/
def load_settings (st : Store) (s : Sys) : Sys :=
  if !s.eeprom_ok then s
  else if st.magic ≠ EEPROM_MAGIC then s
  else
    let s1 := match find_protocol_index st.pid protocols with
      | some i => { s with active_index := i }
      | none => s
    { s1 with active_side_opfor := st.side != 0 }

-- -------------------- Buttons / actions --------------------

def next_protocol (s : Sys) : Sys :=
  { s with active_index := (s.active_index + 1) % NUM_PROTOCOLS }

def toggle_side (s : Sys) : Sys :=
  { s with active_side_opfor := !s.active_side_opfor }

def manual_fire (s : Sys) : Sys :=
  if s.state = State.ARMED_SENSING then { s with state := State.ARMED_IR_FLASH }
  else s

/-- `handle_power_button` for one tick: `pressed` is the PWR pin reading
(LOW = pressed), `now` is `millis()`.  Returns the updated globals and
whether the long-press fired on this tick. -/
def handle_power_button (pressed : Bool) (now : Nat) (s : Sys) : Sys × Bool :=
  if pressed then
    let s1 := if !s.pwr_down then { s with pwr_down := true, t_last_pwr := now }
              else s
    if s1.pwr_down ∧ PWR_HOLD_MS ≤ now - s1.t_last_pwr then
      ({ s1 with
           state := if s1.state = State.SAFE_STATE then State.SAFE_READY
                    else State.SAFE_STATE,
           pwr_down := false, t_expended_start := 0 }, true)
    else (s1, false)
  else ({ s with pwr_down := false }, false)

-- -------------------- FSM step --------------------

/-- `fsm_step`: one evaluation of the state switch. -/
def fsm_step (i : Inp) (s : Sys) : Sys :=
  match s.state with
  | State.SAFE_STATE => s
  | State.SAFE_READY =>
      if i.limit then { s with state := State.ARMED_FLY } else s
  | State.ARMED_FLY =>
      if !i.limit then { s with state := State.ARMED_SENSING } else s
  | State.ARMED_SENSING =>
      if i.alt then { s with state := State.ARMED_IR_FLASH } else s
  | State.ARMED_IR_FLASH =>
      let bits := apply_side_to_frame
        (build_frame_from_code (protocols.getD s.active_index pdefault).code)
        s.active_side_opfor
      let s1 := laser_transmit_frame bits i.ir_sense i.now s
      { s1 with state := State.EXPENDED, t_expended_start := i.now }
  | State.EXPENDED =>
      if EXPENDED_MS ≤ i.now - s.t_expended_start then
        { s with state := State.SAFE_STATE }
      else s

-- -------------------- Setup / Loop --------------------

/-- The settings-relevant part of `setup()`: record `EEPROM.begin`'s result
and run `load_settings`; the FSM stays in its boot state `SAFE_STATE` and no
configuration check of any kind is performed. -/
def setup (st : Store) : Sys :=
  load_settings st { sysInit with eeprom_ok := st.avail }

/-- Next-protocol button branch of `loop()` (debounced). -/
def next_btn (i : Inp) (s : Sys) : Sys :=
  if i.btn_next ∧ DEBOUNCE_MS < i.now - s.t_last_next then
    next_protocol { s with t_last_next := i.now }
  else s

/-- Side-toggle button branch of `loop()` (debounced). -/
def side_btn (i : Inp) (s : Sys) : Sys :=
  if i.btn_side ∧ DEBOUNCE_MS < i.now - s.t_last_side then
    toggle_side { s with t_last_side := i.now }
  else s

/-- Manual-fire button branch of `loop()` (debounced). -/
def fire_btn (i : Inp) (s : Sys) : Sys :=
  if i.btn_fire ∧ DEBOUNCE_MS < i.now - s.t_last_fire then
    manual_fire { s with t_last_fire := i.now }
  else s

/-- One iteration of `loop()`: power long-press handling first, then the
three debounced buttons, then `fsm_step`. -/
def loop_tick (i : Inp) (s : Sys) : Sys :=
  let s1 := (handle_power_button i.btn_pwr i.now s).1
  let s2 := next_btn i s1
  let s3 := side_btn i s2
  let s4 := fire_btn i s3
  fsm_step i s4

/-- Iterated `handle_power_button` over a sample trace of
`(millis, pin-pressed)` pairs, counting the long-press events it emits. -/
def power_run (s : Sys) : List (Nat × Bool) → Sys × Nat
  | [] => (s, 0)
  | tp :: rest =>
    let r := handle_power_button tp.2 tp.1 s
    let r2 := power_run r.1 rest
    (r2.1, (if r.2 then 1 else 0) + r2.2)

-- -------------------- FSM transition relation --------------------

/-- The single-transition edges of the controller, read off the code: the
five guard-driven edges of `fsm_step`, the automatic transmit edge, and the
two long-press edges of `handle_power_button` (arm from SAFE, force-SAFE
from anywhere else). -/
def edgeB (a b : State) : Bool :=
  (a == State.SAFE_STATE && b == State.SAFE_READY) ||
  (a == State.SAFE_READY && b == State.ARMED_FLY) ||
  (a == State.ARMED_FLY && b == State.ARMED_SENSING) ||
  (a == State.ARMED_SENSING && b == State.ARMED_IR_FLASH) ||
  (a == State.ARMED_IR_FLASH && b == State.EXPENDED) ||
  (a == State.EXPENDED && b == State.SAFE_STATE) ||
  (!(a == State.SAFE_STATE) && b == State.SAFE_STATE)

/-- At most one transition: stay put or take one edge. -/
def step1 (a b : State) : Prop := a = b ∨ edgeB a b = true

end DropMiles

namespace DropMiles

-- -------------------- Frame lemmas --------------------

theorem build_frame_length (c : MILES_Code) :
    (build_frame_from_code c).length = 11 := by
  simp [build_frame_from_code]

theorem build_frame_getD (c : MILES_Code) (i : Nat) (h : i < 11) :
    (build_frame_from_code c).getD i 0 =
      if c.pattern.getD i 0 ≠ 0 then 1 else 0 := by
  simp [build_frame_from_code, List.getD_eq_getElem?_getD, List.getElem?_map,
        List.getElem?_range h]

theorem side_bit_lt_frame_length (c : MILES_Code) :
    SIDE_BIT_INDEX < (build_frame_from_code c).length := by
  rw [build_frame_length]; decide

/-- C1 (amended): encoding any code word whose pattern entries are bits sets
the frame bit at `SIDE_BIT_INDEX` (= 5) to 1 for OPFOR and 0 for BLUFOR and
leaves every other bit equal to the pattern; in particular, encoding
`PLAYER_UNIVERSAL_KILL` with OPFOR returns the pattern unchanged (bit 5 is
already 1), not the spec's `{1,1,0,0,0,1,1,1,1,0,1}`. -/
theorem claim1_encode_team_bit (c : MILES_Code) (opfor : Bool)
    (h : ∀ i, i < 11 → c.pattern.getD i 0 = 0 ∨ c.pattern.getD i 0 = 1) :
    (encode c opfor).getD SIDE_BIT_INDEX 0 = (if opfor then 1 else 0) ∧
    (∀ i, i < 11 → i ≠ SIDE_BIT_INDEX →
      (encode c opfor).getD i 0 = c.pattern.getD i 0) ∧
    encode PLAYER_UNIVERSAL_KILL true = [1, 1, 0, 0, 0, 1, 0, 1, 1, 0, 1] := by
  have hlen := side_bit_lt_frame_length c
  refine ⟨?_, ?_, by decide⟩
  · simp [encode, apply_side_to_frame, hlen, List.getD_eq_getElem?_getD,
          List.getElem?_set_self hlen]
  · intro i hi hne
    have hstep : (encode c opfor).getD i 0 = (build_frame_from_code c).getD i 0 := by
      simp [encode, apply_side_to_frame, hlen, List.getD_eq_getElem?_getD,
            List.getElem?_set_ne (Ne.symm hne)]
    rw [hstep, build_frame_getD c i hi]
    rcases h i hi with h0 | h1
    · rw [h0]; simp
    · rw [h1]; simp

/-- C1 (counterexample): the spec's concrete scenario is wrong — encoding
`{1,1,0,0,0,1,0,1,1,0,1}` with OPFOR leaves the frame unchanged because bit
index 5 is already 1; it does not produce `{1,1,0,0,0,1,1,1,1,0,1}`. -/
theorem claim1_counterexample :
    encode PLAYER_UNIVERSAL_KILL true ≠ [1, 1, 0, 0, 0, 1, 1, 1, 1, 0, 1] ∧
    encode PLAYER_UNIVERSAL_KILL true = [1, 1, 0, 0, 0, 1, 0, 1, 1, 0, 1] := by
  decide

/-- C1 witness: `claim1_encode_team_bit` evaluated at
`PLAYER_UNIVERSAL_KILL` and OPFOR. -/
theorem claim1_witness :
    (encode PLAYER_UNIVERSAL_KILL true).getD SIDE_BIT_INDEX 0 = 1 ∧
    (encode PLAYER_UNIVERSAL_KILL true).getD 6 0 =
      PLAYER_UNIVERSAL_KILL.pattern.getD 6 0 := by
  have h := claim1_encode_team_bit PLAYER_UNIVERSAL_KILL true (by decide)
  exact ⟨by simpa using h.1, h.2.1 6 (by decide) (by decide)⟩

-- -------------------- Manual fire (C5) --------------------

/-- C5: `manual_fire` moves ARMED_SENSING to ARMED_IR_FLASH (the altitude
flag is not consulted — the debounced fire branch fires even with
`alt = false`) and leaves the whole state unchanged in any other state. -/
theorem claim5_manual_fire (i : Inp) (s : Sys) :
    (s.state = State.ARMED_SENSING →
      manual_fire s = { s with state := State.ARMED_IR_FLASH }) ∧
    (s.state ≠ State.ARMED_SENSING → manual_fire s = s) ∧
    (i.alt = false → s.state = State.ARMED_SENSING → i.btn_fire = true →
      DEBOUNCE_MS < i.now - s.t_last_fire →
      (fire_btn i s).state = State.ARMED_IR_FLASH) := by
  refine ⟨?_, ?_, ?_⟩
  · intro h; simp [manual_fire, h]
  · intro h; simp [manual_fire, h]
  · intro _ h hb hd
    simp [fire_btn, hb, hd, manual_fire, h]

def c5s : Sys := { sysInit with state := State.ARMED_SENSING }

def c5i : Inp :=
  { btn_pwr := false, btn_next := false, btn_side := false, btn_fire := true,
    limit := false, alt := false, ir_sense := false, now := 300 }

/-- C5 witness: `claim5_manual_fire` at concrete states, including a fire
press with the altitude flag low. -/
theorem claim5_witness :
    manual_fire c5s = { c5s with state := State.ARMED_IR_FLASH } ∧
    manual_fire sysInit = sysInit ∧
    (fire_btn c5i c5s).state = State.ARMED_IR_FLASH := by
  exact ⟨(claim5_manual_fire c5i c5s).1 (by decide),
         (claim5_manual_fire c5i sysInit).2.1 (by decide),
         (claim5_manual_fire c5i c5s).2.2 (by decide) (by decide) (by decide)
           (by decide)⟩

-- -------------------- Transmit effects (C6) --------------------

/-- C6: the transmit tick from ARMED_IR_FLASH increments the shot counter by
exactly one, records the shot event (toast flag) and the confirmation
outcome, and reaches EXPENDED regardless of the self-sense result; moreover
`laser_transmit_frame` itself adds exactly one to the counter
unconditionally. -/
theorem claim6_transmit_counts (i : Inp) (s : Sys)
    (h : s.state = State.ARMED_IR_FLASH) :
    (fsm_step i s).state = State.EXPENDED ∧
    (fsm_step i s).shot_count = s.shot_count + 1 ∧
    (fsm_step i s).flash_event = true ∧
    (fsm_step i s).flash_confirmed = i.ir_sense ∧
    (∀ bits seen now s0,
      (laser_transmit_frame bits seen now s0).shot_count = s0.shot_count + 1) := by
  refine ⟨?_, ?_, ?_, ?_, fun _ _ _ _ => rfl⟩ <;>
    simp [fsm_step, h, laser_transmit_frame]

def c6s : Sys := { sysInit with state := State.ARMED_IR_FLASH }

def c6i : Inp :=
  { btn_pwr := false, btn_next := false, btn_side := false, btn_fire := false,
    limit := false, alt := false, ir_sense := false, now := 42 }

/-- C6 witness: `claim6_transmit_counts` at a concrete tick whose self-sense
confirmation fails (`ir_sense = false`): the counter still increments and the
state still reaches EXPENDED. -/
theorem claim6_witness :
    (fsm_step c6i c6s).state = State.EXPENDED ∧
    (fsm_step c6i c6s).shot_count = c6s.shot_count + 1 ∧
    (fsm_step c6i c6s).flash_confirmed = false := by
  have h := claim6_transmit_counts c6i c6s (by decide)
  exact ⟨h.1, h.2.1, h.2.2.2.1.trans (by decide)⟩

end DropMiles

namespace DropMiles

-- -------------------- Power-button step lemmas --------------------

theorem hp_release (now : Nat) (s : Sys) :
    handle_power_button false now s = ({ s with pwr_down := false }, false) := by
  simp [handle_power_button]

theorem hp_first_press (now : Nat) (s : Sys) (hd : s.pwr_down = false) :
    handle_power_button true now s =
      ({ s with pwr_down := true, t_last_pwr := now }, false) := by
  simp [handle_power_button, hd, PWR_HOLD_MS]

theorem hp_held_no_fire (now : Nat) (s : Sys) (hd : s.pwr_down = true)
    (hlt : now - s.t_last_pwr < PWR_HOLD_MS) :
    handle_power_button true now s = (s, false) := by
  simp [handle_power_button, hd, Nat.not_le.mpr hlt]

theorem hp_held_fire (now : Nat) (s : Sys) (hd : s.pwr_down = true)
    (hge : PWR_HOLD_MS ≤ now - s.t_last_pwr) :
    handle_power_button true now s =
      ({ s with
           state := if s.state = State.SAFE_STATE then State.SAFE_READY
                    else State.SAFE_STATE,
           pwr_down := false, t_expended_start := 0 }, true) := by
  simp [handle_power_button, hd, hge]

theorem hp_fire_rearm (p : Bool) (n : Nat) (s : Sys)
    (h : (handle_power_button p n s).2 = true) :
    (handle_power_button p n s).1.pwr_down = false := by
  cases p
  · rw [hp_release] at h; exact absurd h (by simp)
  · by_cases hd : s.pwr_down = true
    · by_cases hge : PWR_HOLD_MS ≤ n - s.t_last_pwr
      · rw [hp_held_fire n s hd hge]
      · rw [hp_held_no_fire n s hd (Nat.not_le.mp hge)] at h; simp at h
    · have hd2 : s.pwr_down = false := by simpa using hd
      rw [hp_first_press n s hd2] at h; simp at h

-- -------------------- Hold-detector runs (C2) --------------------

theorem power_run_hold_quiet (rest : List (Nat × Bool)) (s : Sys)
    (hd : s.pwr_down = true)
    (hq : ∀ tp ∈ rest, tp.2 = true ∧ tp.1 - s.t_last_pwr < PWR_HOLD_MS) :
    power_run s rest = (s, 0) := by
  induction rest with
  | nil => rfl
  | cons tp rest ih =>
    obtain ⟨hp, hlt⟩ := hq tp (List.mem_cons_self _ _)
    have hstep : handle_power_button tp.2 tp.1 s = (s, false) := by
      rw [hp]; exact hp_held_no_fire tp.1 s hd hlt
    have htail := ih (fun q hq2 => hq q (List.mem_cons_of_mem _ hq2))
    simp [power_run, hstep, htail]

theorem power_run_hold_fires (rest : List (Nat × Bool)) : ∀ s : Sys,
    s.pwr_down = true →
    (∀ tp ∈ rest, tp.2 = true) →
    (∃ tp ∈ rest, s.t_last_pwr + PWR_HOLD_MS ≤ tp.1) →
    1 ≤ (power_run s rest).2 := by
  induction rest with
  | nil => intro s _ _ hex; simp at hex
  | cons tp rest ih =>
    intro s hd hall hex
    have hp := hall tp (List.mem_cons_self _ _)
    by_cases hge : PWR_HOLD_MS ≤ tp.1 - s.t_last_pwr
    · have hstep : handle_power_button tp.2 tp.1 s =
          ({ s with
               state := if s.state = State.SAFE_STATE then State.SAFE_READY
                        else State.SAFE_STATE,
               pwr_down := false, t_expended_start := 0 }, true) := by
        rw [hp]; exact hp_held_fire tp.1 s hd hge
      simp [power_run, hstep]
    · have hlt : tp.1 - s.t_last_pwr < PWR_HOLD_MS := Nat.not_le.mp hge
      have hstep : handle_power_button tp.2 tp.1 s = (s, false) := by
        rw [hp]; exact hp_held_no_fire tp.1 s hd hlt
      obtain ⟨q, hqmem, hqge⟩ := hex
      rcases List.mem_cons.mp hqmem with rfl | hqtail
      · exact absurd (by omega : PWR_HOLD_MS ≤ q.1 - s.t_last_pwr) hge
      · have htail := ih s hd (fun r hr => hall r (List.mem_cons_of_mem _ hr))
          ⟨q, hqtail, hqge⟩
        simp [power_run, hstep]
        omega

/-- C2 (amended): a press released before `PWR_HOLD_MS` emits zero long-press
events and a press held past the threshold emits at least one; but after an
event fires the detector re-arms immediately (`pwr_down` drops back to
`false` while the level is still asserted), so a press held for a further
`PWR_HOLD_MS` emits again without any release — "exactly one per sustained
press" does not hold. -/
theorem claim2_hold_detector :
    (∀ (s : Sys) (t0 : Nat) (rest : List (Nat × Bool)), s.pwr_down = false →
      (∀ tp ∈ rest, tp.2 = true ∧ tp.1 < t0 + PWR_HOLD_MS) →
      (power_run s ((t0, true) :: rest)).2 = 0) ∧
    (∀ (s : Sys) (t0 : Nat) (rest : List (Nat × Bool)), s.pwr_down = false →
      (∀ tp ∈ rest, tp.2 = true) →
      (∃ tp ∈ rest, t0 + PWR_HOLD_MS ≤ tp.1) →
      1 ≤ (power_run s ((t0, true) :: rest)).2) ∧
    (∀ (p : Bool) (n : Nat) (s : Sys), (handle_power_button p n s).2 = true →
      (handle_power_button p n s).1.pwr_down = false) := by
  refine ⟨?_, ?_, hp_fire_rearm⟩
  · intro s t0 rest hd hq
    have hstep := hp_first_press t0 s hd
    have hquiet := power_run_hold_quiet rest
      { s with pwr_down := true, t_last_pwr := t0 } rfl
      (fun tp hm => ⟨(hq tp hm).1, by
        have h2 := (hq tp hm).2
        have hP : PWR_HOLD_MS = 800 := rfl
        simp
        omega⟩)
    simp [power_run, hstep, hquiet]
  · intro s t0 rest hd hall hex
    have hstep := hp_first_press t0 s hd
    have hfires := power_run_hold_fires rest
      { s with pwr_down := true, t_last_pwr := t0 } rfl hall
      (by simpa using hex)
    simp [power_run, hstep]
    omega

/-- C2 (counterexample): a single sustained press (the level is asserted at
every sample) held from 0 to 1800 ms emits two long-press events, not one —
the detector restarts its timer after firing at 900 ms and fires again at
1800 ms without the level ever being released. -/
theorem claim2_counterexample :
    ([(0, true), (900, true), (905, true), (1800, true)] :
        List (Nat × Bool)).all (fun tp => tp.2) = true ∧
    (power_run sysInit [(0, true), (900, true), (905, true), (1800, true)]).2
      = 2 := by
  decide

/-- C2 witness: `claim2_hold_detector` at concrete traces — a 100 ms press
emits nothing, a press still held at 900 ms has emitted an event, and a
firing step clears `pwr_down`. -/
theorem claim2_witness :
    (power_run sysInit [(0, true), (100, true)]).2 = 0 ∧
    1 ≤ (power_run sysInit [(0, true), (900, true)]).2 ∧
    (handle_power_button true 900 { sysInit with pwr_down := true }).1.pwr_down
      = false := by
  refine ⟨claim2_hold_detector.1 sysInit 0 [(100, true)] rfl (by decide),
          claim2_hold_detector.2.1 sysInit 0 [(900, true)] rfl (by decide)
            (by decide),
          claim2_hold_detector.2.2 true 900 { sysInit with pwr_down := true }
            (by decide)⟩

end DropMiles

namespace DropMiles

-- -------------------- Tick decomposition lemmas --------------------

theorem loop_tick_eq (i : Inp) (s : Sys) :
    loop_tick i s =
      fsm_step i (fire_btn i (side_btn i (next_btn i
        (handle_power_button i.btn_pwr i.now s).1))) := rfl

theorem next_btn_state (i : Inp) (s : Sys) : (next_btn i s).state = s.state := by
  unfold next_btn next_protocol; split <;> rfl

theorem side_btn_state (i : Inp) (s : Sys) : (side_btn i s).state = s.state := by
  unfold side_btn toggle_side; split <;> rfl

theorem next_btn_texp (i : Inp) (s : Sys) :
    (next_btn i s).t_expended_start = s.t_expended_start := by
  unfold next_btn next_protocol; split <;> rfl

theorem side_btn_texp (i : Inp) (s : Sys) :
    (side_btn i s).t_expended_start = s.t_expended_start := by
  unfold side_btn toggle_side; split <;> rfl

theorem fire_btn_texp (i : Inp) (s : Sys) :
    (fire_btn i s).t_expended_start = s.t_expended_start := by
  unfold fire_btn manual_fire
  split
  · split <;> rfl
  · rfl

theorem fire_btn_state_or (i : Inp) (s : Sys) :
    (fire_btn i s).state = s.state ∨
    (s.state = State.ARMED_SENSING ∧
      (fire_btn i s).state = State.ARMED_IR_FLASH) := by
  by_cases hb : i.btn_fire = true ∧ DEBOUNCE_MS < i.now - s.t_last_fire
  · by_cases hs : s.state = State.ARMED_SENSING
    · right; exact ⟨hs, by simp [fire_btn, hb, manual_fire, hs]⟩
    · left; simp [fire_btn, hb, manual_fire, hs]
  · left; simp [fire_btn, hb]

theorem fire_btn_state_ne (i : Inp) (s : Sys)
    (h : s.state ≠ State.ARMED_SENSING) : (fire_btn i s).state = s.state := by
  rcases fire_btn_state_or i s with h1 | ⟨h2, _⟩
  · exact h1
  · exact absurd h2 h

theorem hp_state_cases (p : Bool) (n : Nat) (s : Sys) :
    ((handle_power_button p n s).2 = false ∧
     (handle_power_button p n s).1.state = s.state ∧
     (handle_power_button p n s).1.t_expended_start = s.t_expended_start) ∨
    ((handle_power_button p n s).2 = true ∧
     (handle_power_button p n s).1.state =
       (if s.state = State.SAFE_STATE then State.SAFE_READY
        else State.SAFE_STATE) ∧
     (handle_power_button p n s).1.t_expended_start = 0) := by
  cases p
  · left; rw [hp_release]; exact ⟨rfl, rfl, rfl⟩
  · by_cases hd : s.pwr_down = true
    · by_cases hge : PWR_HOLD_MS ≤ n - s.t_last_pwr
      · right; rw [hp_held_fire n s hd hge]; exact ⟨rfl, rfl, rfl⟩
      · left; rw [hp_held_no_fire n s hd (Nat.not_le.mp hge)]
        exact ⟨rfl, rfl, rfl⟩
    · have hd2 : s.pwr_down = false := by simpa using hd
      left; rw [hp_first_press n s hd2]; exact ⟨rfl, rfl, rfl⟩

theorem fsm_step_state (i : Inp) (s : Sys) :
    (fsm_step i s).state =
      match s.state with
      | State.SAFE_STATE => State.SAFE_STATE
      | State.SAFE_READY =>
          if i.limit then State.ARMED_FLY else State.SAFE_READY
      | State.ARMED_FLY =>
          if !i.limit then State.ARMED_SENSING else State.ARMED_FLY
      | State.ARMED_SENSING =>
          if i.alt then State.ARMED_IR_FLASH else State.ARMED_SENSING
      | State.ARMED_IR_FLASH => State.EXPENDED
      | State.EXPENDED =>
          if EXPENDED_MS ≤ i.now - s.t_expended_start then State.SAFE_STATE
          else State.EXPENDED := by
  cases h : s.state <;> simp [fsm_step, h] <;> split <;> simp [h]

theorem edgeB_to_safe (a : State) (h : a ≠ State.SAFE_STATE) :
    edgeB a State.SAFE_STATE = true := by
  cases a <;> first | exact absurd rfl h | decide

theorem fsm_step_step1 (i : Inp) (s : Sys) :
    step1 s.state ((fsm_step i s).state) := by
  rw [fsm_step_state]
  cases h : s.state
  · exact Or.inl rfl
  · by_cases hl : i.limit = true <;> simp [hl]
    · exact Or.inr (by decide)
    · exact Or.inl rfl
  · by_cases hl : i.limit = true <;> simp [hl]
    · exact Or.inl rfl
    · exact Or.inr (by decide)
  · by_cases ha : i.alt = true <;> simp [ha]
    · exact Or.inr (by decide)
    · exact Or.inl rfl
  · show step1 State.ARMED_IR_FLASH State.EXPENDED
    exact Or.inr (by decide)
  · by_cases he : EXPENDED_MS ≤ i.now - s.t_expended_start <;> simp [he]
    · exact Or.inr (by decide)
    · exact Or.inl rfl

/-- C3 (amended): each tick evaluates the global long-press override first,
then the buttons, then the state switch; the FSM can move by up to TWO
transitions in one tick (a long-press or manual-fire state change followed
by one `fsm_step` transition from the new state), i.e. the reached state is
always within two `step1` steps of the starting state. -/
theorem claim3_at_most_two (i : Inp) (s : Sys) :
    ∃ m, step1 s.state m ∧ step1 m ((loop_tick i s).state) := by
  rw [loop_tick_eq]
  have hs3 : (side_btn i (next_btn i
      (handle_power_button i.btn_pwr i.now s).1)).state =
      (handle_power_button i.btn_pwr i.now s).1.state := by
    rw [side_btn_state, next_btn_state]
  rcases hp_state_cases i.btn_pwr i.now s with ⟨_, hst, _⟩ | ⟨_, hst, _⟩
  · refine ⟨(fire_btn i (side_btn i (next_btn i
      (handle_power_button i.btn_pwr i.now s).1))).state, ?_,
      fsm_step_step1 i _⟩
    rcases fire_btn_state_or i (side_btn i (next_btn i
        (handle_power_button i.btn_pwr i.now s).1)) with h4 | ⟨hAS, h4⟩
    · exact Or.inl (by rw [h4, hs3, hst])
    · rw [hs3, hst] at hAS
      rw [h4, hAS]
      exact Or.inr (by decide)
  · have hno : (side_btn i (next_btn i
        (handle_power_button i.btn_pwr i.now s).1)).state ≠
        State.ARMED_SENSING := by
      rw [hs3, hst]
      by_cases hS : s.state = State.SAFE_STATE <;> simp [hS]
    have h4 := fire_btn_state_ne i _ hno
    refine ⟨(handle_power_button i.btn_pwr i.now s).1.state, ?_, ?_⟩
    · rw [hst]
      by_cases hS : s.state = State.SAFE_STATE
      · rw [if_pos hS, hS]; exact Or.inr (by decide)
      · rw [if_neg hS]; exact Or.inr (edgeB_to_safe s.state hS)
    · have := fsm_step_step1 i (fire_btn i (side_btn i (next_btn i
        (handle_power_button i.btn_pwr i.now s).1)))
      rw [h4, hs3] at this
      exact this

def c3s : Sys := { sysInit with state := State.ARMED_SENSING }

def c3i : Inp :=
  { btn_pwr := false, btn_next := false, btn_side := false, btn_fire := true,
    limit := false, alt := false, ir_sense := false, now := 300 }

/-- C3 (counterexample): with the FSM in ARMED_SENSING and the fire button
pressed (altitude flag low), a single tick performs TWO transitions —
`manual_fire` moves to ARMED_IR_FLASH and `fsm_step` then transmits and
moves on to EXPENDED in the same tick (the shot counter increments), even
though no single transition edge leads from ARMED_SENSING to EXPENDED. -/
theorem claim3_counterexample :
    c3s.state = State.ARMED_SENSING ∧
    (loop_tick c3i c3s).state = State.EXPENDED ∧
    edgeB State.ARMED_SENSING State.EXPENDED = false ∧
    (loop_tick c3i c3s).shot_count = c3s.shot_count + 1 := by
  decide

end DropMiles

namespace DropMiles

theorem fsm_step_safe (i : Inp) (s : Sys) (h : s.state = State.SAFE_STATE) :
    fsm_step i s = s := by
  simp [fsm_step, h]

/-- C4: from EXPENDED, a tick either stays in EXPENDED or reaches
SAFE_STATE, and it reaches SAFE_STATE only if the global long-press fired
this tick (in which case the expended timer is also reset to 0) or at least
`EXPENDED_MS` has elapsed since the timer was started on entry to
EXPENDED. -/
theorem claim4_expended_exit (i : Inp) (s : Sys)
    (h : s.state = State.EXPENDED) :
    ((loop_tick i s).state = State.SAFE_STATE ∨
     (loop_tick i s).state = State.EXPENDED) ∧
    ((loop_tick i s).state = State.SAFE_STATE →
      ((handle_power_button i.btn_pwr i.now s).2 = true ∧
        (loop_tick i s).t_expended_start = 0) ∨
      EXPENDED_MS ≤ i.now - s.t_expended_start) := by
  rw [loop_tick_eq]
  have hs3state : (side_btn i (next_btn i
      (handle_power_button i.btn_pwr i.now s).1)).state =
      (handle_power_button i.btn_pwr i.now s).1.state := by
    rw [side_btn_state, next_btn_state]
  have htexp : (fire_btn i (side_btn i (next_btn i
      (handle_power_button i.btn_pwr i.now s).1))).t_expended_start =
      (handle_power_button i.btn_pwr i.now s).1.t_expended_start := by
    rw [fire_btn_texp, side_btn_texp, next_btn_texp]
  rcases hp_state_cases i.btn_pwr i.now s with ⟨hf, hst, hte⟩ | ⟨hf, hst, hte⟩
  · have hne : (side_btn i (next_btn i
        (handle_power_button i.btn_pwr i.now s).1)).state ≠
        State.ARMED_SENSING := by
      rw [hs3state, hst, h]; decide
    have hs4 : (fire_btn i (side_btn i (next_btn i
        (handle_power_button i.btn_pwr i.now s).1))).state =
        State.EXPENDED := by
      rw [fire_btn_state_ne i _ hne, hs3state, hst, h]
    have hs4texp : (fire_btn i (side_btn i (next_btn i
        (handle_power_button i.btn_pwr i.now s).1))).t_expended_start =
        s.t_expended_start := htexp.trans hte
    have hstep : (fsm_step i (fire_btn i (side_btn i (next_btn i
        (handle_power_button i.btn_pwr i.now s).1)))).state =
        (if EXPENDED_MS ≤ i.now - s.t_expended_start then State.SAFE_STATE
         else State.EXPENDED) := by
      simp [fsm_step_state, hs4, hs4texp]
    refine ⟨?_, ?_⟩
    · by_cases he : EXPENDED_MS ≤ i.now - s.t_expended_start
      · exact Or.inl (by rw [hstep, if_pos he])
      · exact Or.inr (by rw [hstep, if_neg he])
    · intro hS
      by_cases he : EXPENDED_MS ≤ i.now - s.t_expended_start
      · exact Or.inr he
      · rw [hstep, if_neg he] at hS
        exact absurd hS (by decide)
  · have hs1 : (handle_power_button i.btn_pwr i.now s).1.state =
        State.SAFE_STATE := by
      simp [hst, h]
    have hne : (side_btn i (next_btn i
        (handle_power_button i.btn_pwr i.now s).1)).state ≠
        State.ARMED_SENSING := by
      rw [hs3state, hs1]; decide
    have hs4 : (fire_btn i (side_btn i (next_btn i
        (handle_power_button i.btn_pwr i.now s).1))).state =
        State.SAFE_STATE := by
      rw [fire_btn_state_ne i _ hne, hs3state, hs1]
    have hfs : fsm_step i (fire_btn i (side_btn i (next_btn i
        (handle_power_button i.btn_pwr i.now s).1))) =
        fire_btn i (side_btn i (next_btn i
          (handle_power_button i.btn_pwr i.now s).1)) :=
      fsm_step_safe i _ hs4
    refine ⟨Or.inl (by rw [hfs, hs4]), fun _ => Or.inl ⟨hf, ?_⟩⟩
    rw [hfs, htexp, hte]

def c4s : Sys := { sysInit with state := State.EXPENDED, t_expended_start := 100 }

def c4i : Inp :=
  { btn_pwr := false, btn_next := false, btn_side := false, btn_fire := false,
    limit := false, alt := false, ir_sense := false, now := 6000 }

/-- C4 witness: `claim4_expended_exit` at a concrete tick 5.9 s after the
expended timer was started. -/
theorem claim4_witness :
    ((loop_tick c4i c4s).state = State.SAFE_STATE ∨
     (loop_tick c4i c4s).state = State.EXPENDED) ∧
    ((loop_tick c4i c4s).state = State.SAFE_STATE →
      ((handle_power_button c4i.btn_pwr c4i.now c4s).2 = true ∧
        (loop_tick c4i c4s).t_expended_start = 0) ∨
      EXPENDED_MS ≤ c4i.now - c4s.t_expended_start) :=
  claim4_expended_exit c4i c4s rfl

-- -------------------- Configuration guard (C7) --------------------

theorem load_settings_state (st : Store) (s : Sys) :
    (load_settings st s).state = s.state := by
  unfold load_settings
  split
  · rfl
  · split
    · rfl
    · cases hf : find_protocol_index st.pid protocols <;> simp [hf]

/-- C7 (counterexample): applied to a frame whose length (3) does not exceed
the team bit index (5), the side-apply operation does not fail — it totally
succeeds and returns the complete frame unchanged — whereas the claim's
contract (`apply_side_spec`, modelled from the spec) demands an error. -/
theorem claim7_counterexample :
    apply_side_to_frame [1, 0, 1] true = [1, 0, 1] ∧
    apply_side_spec [1, 0, 1] true = none := by
  decide

/-- C7 (amended): when the frame length is at most `SIDE_BIT_INDEX`,
`apply_side_to_frame` silently skips the side override and returns the frame
unchanged (no error, no partial output — diverging from the spec-modelled
`apply_side_spec`, which fails); no configuration check is performed at
startup (`setup` always boots into SAFE_STATE); and in this program the skip
branch is unreachable anyway because every built frame has length 11 > 5. -/
theorem claim7_silent_skip (bits : List Nat) (opfor : Bool)
    (h : bits.length ≤ SIDE_BIT_INDEX) :
    apply_side_to_frame bits opfor = bits ∧
    apply_side_spec bits opfor = none ∧
    (∀ c : MILES_Code, SIDE_BIT_INDEX < (build_frame_from_code c).length) ∧
    (∀ st : Store, (setup st).state = State.SAFE_STATE) := by
  refine ⟨?_, ?_, side_bit_lt_frame_length, ?_⟩
  · simp [apply_side_to_frame, Nat.not_lt.mpr h]
  · simp [apply_side_spec, Nat.not_lt.mpr h]
  · intro st
    show (load_settings st _).state = _
    rw [load_settings_state]
    rfl

/-- C7 witness: `claim7_silent_skip` at a concrete 3-bit frame. -/
theorem claim7_witness :
    apply_side_to_frame [1, 0, 1] false = [1, 0, 1] ∧
    apply_side_spec [1, 0, 1] false = none ∧
    SIDE_BIT_INDEX < (build_frame_from_code PLAYER_UNIVERSAL_KILL).length ∧
    (setup { avail := true, magic := 0, pid := 0, side := 0 }).state
      = State.SAFE_STATE := by
  have h := claim7_silent_skip [1, 0, 1] false (by decide)
  exact ⟨h.1, h.2.1, h.2.2.1 PLAYER_UNIVERSAL_KILL, h.2.2.2 _⟩

-- -------------------- Persistence fallback (C8) --------------------

def c8store : Store :=
  { avail := true, magic := EEPROM_MAGIC, pid := 99, side := 1 }

def c8sys : Sys := { sysInit with eeprom_ok := true }

/-- C8 (counterexample): with an available store, a valid marker, an unknown
protocol id (99) and persisted side 1, `load_settings` keeps the default
protocol index 0 but still applies the persisted side — the side becomes
OPFOR, not the claimed BLUFOR default. -/
theorem claim8_counterexample :
    (load_settings c8store c8sys).active_index = 0 ∧
    (load_settings c8store c8sys).active_side_opfor = true := by
  decide

/-- C8 (amended): when the store is unavailable, loading changes nothing and
saving is a no-op (both defaults — protocol index 0, BLUFOR — are kept and
persistence is silently skipped, never fatal); when the marker is invalid,
loading changes nothing; when the marker is valid but the persisted protocol
id matches no registry entry, only the protocol index keeps its default —
the persisted side byte is still applied. -/
theorem claim8_fallback :
    (∀ (st : Store) (s : Sys), s.eeprom_ok = false →
      load_settings st s = s ∧ save_settings s st = st) ∧
    (∀ (st : Store) (s : Sys), st.magic ≠ EEPROM_MAGIC →
      load_settings st s = s) ∧
    (∀ (st : Store) (s : Sys), s.eeprom_ok = true →
      st.magic = EEPROM_MAGIC →
      find_protocol_index st.pid protocols = none →
      load_settings st s = { s with active_side_opfor := st.side != 0 }) := by
  refine ⟨?_, ?_, ?_⟩
  · intro st s h
    exact ⟨by simp [load_settings, h], by simp [save_settings, h]⟩
  · intro st s h
    by_cases he : s.eeprom_ok = true
    · simp [load_settings, he, h]
    · have he2 : s.eeprom_ok = false := by simpa using he
      simp [load_settings, he2]
  · intro st s he hm hf
    simp [load_settings, he, hm, hf]

def c8store2 : Store := { avail := false, magic := 0, pid := 0, side := 0 }

/-- C8 witness: `claim8_fallback` at concrete stores — an unavailable store,
a store with a bad marker, and a store with an unknown protocol id. -/
theorem claim8_witness :
    (load_settings c8store2 sysInit = sysInit ∧
      save_settings sysInit c8store2 = c8store2) ∧
    load_settings { c8store with magic := 7 } c8sys = c8sys ∧
    load_settings c8store c8sys = { c8sys with active_side_opfor := true } := by
  refine ⟨claim8_fallback.1 c8store2 sysInit rfl,
          claim8_fallback.2.1 { c8store with magic := 7 } c8sys (by decide),
          ?_⟩
  exact claim8_fallback.2.2 c8store c8sys rfl rfl (by decide)

end DropMiles

namespace DropMiles

-- -------------------- Protocol index invariant (C9) --------------------

theorem find_protocol_index_spec (pid : Nat) :
    ∀ (l : List ProtocolEntry) (i : Nat), find_protocol_index pid l = some i →
      i < l.length ∧ (l.getD i pdefault).id = pid := by
  intro l
  induction l with
  | nil => intro i h; simp [find_protocol_index] at h
  | cons e rest ih =>
    intro i h
    by_cases he : e.id = pid
    · rw [find_protocol_index, if_pos he] at h
      have h0 : i = 0 := (Option.some.injEq _ _).mp h.symm
      subst h0
      exact ⟨Nat.succ_pos _, he⟩
    · rw [find_protocol_index, if_neg he] at h
      obtain ⟨j, hj, hji⟩ := Option.map_eq_some'.mp h
      obtain ⟨hjlt, hjid⟩ := ih j hj
      subst hji
      exact ⟨Nat.succ_lt_succ hjlt, by simpa [List.getD_cons_succ] using hjid⟩

theorem load_settings_index (st : Store) (s : Sys) :
    (load_settings st s).active_index = s.active_index ∨
    ((load_settings st s).active_index < NUM_PROTOCOLS ∧
      (protocols.getD (load_settings st s).active_index pdefault).id
        = st.pid) := by
  unfold load_settings
  split
  · left; rfl
  · split
    · left; rfl
    · cases hf : find_protocol_index st.pid protocols with
      | none => left; simp [hf]
      | some j =>
        right
        have hspec := find_protocol_index_spec st.pid protocols j hf
        simp only [hf]
        exact ⟨hspec.1, hspec.2⟩

theorem hp_index (p : Bool) (n : Nat) (s : Sys) :
    (handle_power_button p n s).1.active_index = s.active_index := by
  cases p
  · rw [hp_release]
  · by_cases hd : s.pwr_down = true
    · by_cases hge : PWR_HOLD_MS ≤ n - s.t_last_pwr
      · rw [hp_held_fire n s hd hge]
      · rw [hp_held_no_fire n s hd (Nat.not_le.mp hge)]
    · rw [hp_first_press n s (by simpa using hd)]

theorem side_btn_index (i : Inp) (s : Sys) :
    (side_btn i s).active_index = s.active_index := by
  unfold side_btn toggle_side; split <;> rfl

theorem fire_btn_index (i : Inp) (s : Sys) :
    (fire_btn i s).active_index = s.active_index := by
  unfold fire_btn manual_fire
  split
  · split <;> rfl
  · rfl

theorem next_btn_index (i : Inp) (s : Sys) :
    (next_btn i s).active_index = s.active_index ∨
    (next_btn i s).active_index = (s.active_index + 1) % NUM_PROTOCOLS := by
  unfold next_btn next_protocol
  split
  · right; rfl
  · left; rfl

theorem fsm_step_index (i : Inp) (s : Sys) :
    (fsm_step i s).active_index = s.active_index := by
  cases h : s.state <;> simp [fsm_step, h, laser_transmit_frame] <;>
    first | rfl | (split <;> rfl)

/-- C9: the selected protocol index starts at 0; the next-protocol action
advances it modulo `NUM_PROTOCOLS` (hence stays in range); a settings load
either leaves the index unchanged or moves it to an in-range index whose
registry entry's id equals the persisted id; and a whole control-loop tick
preserves `active_index < NUM_PROTOCOLS`. -/
theorem claim9_index_invariant :
    sysInit.active_index = 0 ∧
    (∀ s : Sys, (next_protocol s).active_index =
        (s.active_index + 1) % NUM_PROTOCOLS ∧
      (next_protocol s).active_index < NUM_PROTOCOLS) ∧
    (∀ (st : Store) (s : Sys), s.active_index < NUM_PROTOCOLS →
      (load_settings st s).active_index < NUM_PROTOCOLS ∧
      ((load_settings st s).active_index = s.active_index ∨
        (protocols.getD (load_settings st s).active_index pdefault).id
          = st.pid)) ∧
    (∀ (i : Inp) (s : Sys), s.active_index < NUM_PROTOCOLS →
      (loop_tick i s).active_index < NUM_PROTOCOLS) := by
  refine ⟨rfl, ?_, ?_, ?_⟩
  · intro s
    refine ⟨rfl, ?_⟩
    show (s.active_index + 1) % NUM_PROTOCOLS < NUM_PROTOCOLS
    exact Nat.mod_lt _ (by decide)
  · intro st s hlt
    rcases load_settings_index st s with h | ⟨h1, h2⟩
    · exact ⟨by rw [h]; exact hlt, Or.inl h⟩
    · exact ⟨h1, Or.inr h2⟩
  · intro i s hlt
    rw [loop_tick_eq, fsm_step_index, fire_btn_index, side_btn_index]
    rcases next_btn_index i ((handle_power_button i.btn_pwr i.now s).1)
      with h | h
    · rw [h, hp_index]; exact hlt
    · rw [h]; exact Nat.mod_lt _ (by decide)

def c9st : Store := { avail := false, magic := 0, pid := 3, side := 0 }

def c9i : Inp :=
  { btn_pwr := false, btn_next := true, btn_side := false, btn_fire := false,
    limit := false, alt := false, ir_sense := false, now := 500 }

/-- C9 witness: `claim9_index_invariant` at the boot state, with a
next-protocol press at 500 ms and a settings load from an unavailable
store. -/
theorem claim9_witness :
    ((load_settings c9st sysInit).active_index < NUM_PROTOCOLS ∧
      ((load_settings c9st sysInit).active_index = sysInit.active_index ∨
        (protocols.getD (load_settings c9st sysInit).active_index
          pdefault).id = c9st.pid)) ∧
    (loop_tick c9i sysInit).active_index < NUM_PROTOCOLS ∧
    (next_protocol sysInit).active_index =
      (sysInit.active_index + 1) % NUM_PROTOCOLS :=
  ⟨claim9_index_invariant.2.2.1 c9st sysInit (by decide),
   claim9_index_invariant.2.2.2 c9i sysInit (by decide),
   (claim9_index_invariant.2.1 sysInit).1⟩

-- -------------------- Transmit timing guard (C10) --------------------

theorem usub32_no_wrap (a b : Nat) (hb : b < a) (ha : a < 2 ^ 32) :
    usub32 a b = a - b := by
  unfold usub32
  omega

theorem frame_schedule_cons (binUs pulseUs b : Nat) (rest : List Nat) :
    frame_schedule binUs pulseUs (b :: rest) =
      bit_schedule binUs pulseUs b ++ frame_schedule binUs pulseUs rest := by
  simp [frame_schedule]

theorem frame_schedule_degenerate (binUs pulseUs : Nat)
    (hle : binUs ≤ pulseUs) :
    ∀ bits : List Nat, frame_schedule binUs pulseUs bits =
      bits.map (fun b => if b ≠ 0 then (true, pulseUs) else (false, binUs)) := by
  intro bits
  induction bits with
  | nil => rfl
  | cons b rest ih =>
    rw [frame_schedule_cons, ih, List.map_cons]
    by_cases hb : b = 0 <;>
      simp [bit_schedule, hb, Nat.not_lt.mpr hle]

theorem frame_schedule_bounded (binUs pulseUs : Nat) (hbin : binUs < 2 ^ 32) :
    ∀ bits : List Nat, ∀ seg ∈ frame_schedule binUs pulseUs bits,
      seg.2 ≤ max binUs pulseUs := by
  intro bits
  induction bits with
  | nil => intro seg h; simp [frame_schedule] at h
  | cons b rest ih =>
    intro seg hmem
    rw [frame_schedule_cons] at hmem
    rcases List.mem_append.mp hmem with hhead | htail
    · unfold bit_schedule at hhead
      by_cases hb : b = 0
      · simp [hb] at hhead
        rw [hhead]
        exact le_max_left _ _
      · by_cases hlt : pulseUs < binUs
        · simp [hb, hlt] at hhead
          rcases hhead with h | h
          · rw [h]
            exact le_max_right _ _
          · rw [h]
            show usub32 binUs pulseUs ≤ max binUs pulseUs
            rw [usub32_no_wrap binUs pulseUs hlt hbin]
            exact le_trans (Nat.sub_le _ _) (le_max_left _ _)
        · simp [hb, hlt] at hhead
          rw [hhead]
          exact le_max_right _ _
    · exact ih seg htail

/-- C10: in the transmit loop, the trailing low segment of a `1` bit is
emitted only when `BIN_US > PULSE_US` — when the configuration invariant is
violated (`binUs ≤ pulseUs`) the schedule degenerates to one bounded segment
per bit and no wrapped-around `uint32` delay ever appears: every segment
duration stays ≤ `max binUs pulseUs`.  With the sketch's actual constants a
`1` bit is a `PULSE_US` pulse followed by the `BIN_US - PULSE_US`
remainder. -/
theorem claim10_no_underflow (binUs pulseUs : Nat) (bits : List Nat)
    (hbin : binUs < 2 ^ 32) (hpulse : pulseUs < 2 ^ 32) :
    (binUs ≤ pulseUs →
      frame_schedule binUs pulseUs bits =
        bits.map (fun b => if b ≠ 0 then (true, pulseUs) else (false, binUs))) ∧
    (∀ seg ∈ frame_schedule binUs pulseUs bits, seg.2 ≤ max binUs pulseUs) ∧
    bit_schedule BIN_US PULSE_US 1 =
      [(true, PULSE_US), (false, BIN_US - PULSE_US)] := by
  have hp0 : pulseUs < 2 ^ 32 := hpulse
  refine ⟨fun hle => frame_schedule_degenerate binUs pulseUs hle bits,
          frame_schedule_bounded binUs pulseUs hbin bits, by decide⟩

def c10bits : List Nat := [1, 0]

/-- C10 witness: `claim10_no_underflow` with a deliberately violated
configuration (`binUs = 500 < pulseUs = 600`): the transmit schedule is
still well-defined and bounded — no underflowed delay occurs. -/
theorem claim10_witness :
    frame_schedule 500 600 c10bits = [(true, 600), (false, 500)] ∧
    (∀ seg ∈ frame_schedule 500 600 c10bits, seg.2 ≤ max 500 600) := by
  have h := claim10_no_underflow 500 600 c10bits (by norm_num) (by norm_num)
  refine ⟨?_, h.2.1⟩
  rw [h.1 (by norm_num)]
  decide

end DropMiles
